import Mathlib

/-
Verification of the go-ioc dependency-resolution engine.

This file gives a shallow embedding of the package's core: the reflection
helpers (GetNamedSetter, GetNamedInstance, GetNamedType), the scoped value
store (Values), the registry and Registration, the recursion graph with its
limit tracking, the Container (scope composition, registration API) and the
dependency resolver with its lifetime dispatch.

Modelling conventions:
- reflect.Type is modelled by the inductive GoType; the two reserved
  capability types (Container, Factory) are distinguished constructors.
- reflect.Value is modelled by GoVal: pointer chains with explicit nil-ness;
  a terminal non-pointer value carries an abstract payload so distinct
  instances of the same type are distinguishable.
- Go heap objects (Values nodes, registries, containers) live in a state St
  of lists indexed by allocation order; pointers are indices.
- Go's nested map[reflect.Type]map[string]X is flattened to an association
  list keyed by (type, name); get/set semantics are preserved.
- sync primitives: the recursion graph's mutex is an explicit boolean in the
  graph state; Lock() on a held mutex is nontermination (Option none), and
  the embedding records exactly where the source releases the mutex.
- Factory functions (func(Factory) (interface{}, error)) are deep-embedded
  as FactoryFn: return a value, return an error, or resolve a dependency
  through the received resolver and then return a value.
- Interface satisfaction (reflect.Type.Implements) is an abstract boolean
  parameter impls, passed through the resolver.
- Recursion through user factories is bounded by an explicit fuel parameter;
  Option none means the embedded computation did not terminate within fuel.
-/

namespace GoIoc

/-- An opaque, comparable Go type identity. base and iface carry an abstract
id; ptr builds pointer types; containerT and factoryT are the two reserved
unnamed capability types (ioc.Container and ioc.Factory). -/
inductive GoType where
  | base (id : Nat)
  | iface (id : Nat)
  | ptr (t : GoType)
  | containerT
  | factoryT
deriving DecidableEq, Repr

/-- A Go runtime value as seen through reflect: a chain of pointers ending in
a non-pointer value. nonPtr carries the declared type and an abstract payload;
nilIfaceV is a typed nil interface value; nilPtr is a typed nil pointer. -/
inductive GoVal where
  | nonPtr (t : GoType) (data : Nat)
  | nilIfaceV (id : Nat)
  | ptrTo (v : GoVal)
  | nilPtr (t : GoType)
deriving DecidableEq, Repr

/-- reflect.Value.Type of a modelled value. -/
def valType : GoVal → GoType
  | .nonPtr t _ => t
  | .nilIfaceV n => .iface n
  | .ptrTo v => .ptr (valType v)
  | .nilPtr t => .ptr t

/-- Whether a modelled type has reflect.Kind Interface. -/
def isIfaceType : GoType → Bool
  | .iface _ => true
  | _ => false

/-- Strip every pointer level from a type (the loop in GetNamedType, and the
type reached by GetNamedSetter when dereferencing through nil pointers). -/
def derefTypePtrs : GoType → GoType
  | .ptr t => derefTypePtrs t
  | t => t

/-- rv.Kind() in {Ptr, Interface} and rv.IsNil() for a modelled value. -/
def isNilPtrOrIface : GoVal → Bool
  | .nilPtr _ => true
  | .nilIfaceV _ => true
  | _ => false

/-- The ErrorCode constants of errors.go. -/
inductive ErrorCode where
  | ErrInstanceNotFound
  | ErrNilType
  | ErrCreateInstanceNil
  | ErrCreateInstance
  | ErrUnresolvedDependency
  | ErrUnsupportedLifetime
  | ErrUnexpectedValueType
  | ErrInterfaceNotImplemented
  | ErrNilValue
  | ErrNonSetNilPointer
  | ErrRequirePointer
  | ErrResolveInfiniteRecursion
deriving DecidableEq, Repr

/-- The ioc.Error struct, reduced to semantically relevant fields: the code,
the requested type and name, the other (expected/interface) type, and the
wrapped inner error. userErr is an error produced by user code (a factory). -/
inductive GoError where
  | base (Code : ErrorCode) (Typ : Option GoType) (Name : String)
      (OtherType : Option GoType)
  | userErr (Message : String)
  | wrap (Code : ErrorCode) (Typ : Option GoType) (Name : String)
      (Inner : GoError)
deriving DecidableEq, Repr

/-- The error code of an error (outermost, for wrapped errors; none for a
plain user error). -/
def errCode : GoError → Option ErrorCode
  | .base c _ _ _ => some c
  | .userErr _ => none
  | .wrap c _ _ _ => some c

def errNilType (name : String) : GoError :=
  .base .ErrNilType none name none

def errNilValue (typ : GoType) (name : String) : GoError :=
  .base .ErrNilValue (some typ) name none

def errNonSetNilPointer (typ : GoType) (name : String) : GoError :=
  .base .ErrNonSetNilPointer (some typ) name none

def errRequirePointer (typ : GoType) (name : String) : GoError :=
  .base .ErrRequirePointer (some typ) name none

def errCreateInstanceFnNil (typ : GoType) (name : String) : GoError :=
  .base .ErrCreateInstanceNil (some typ) name none

def errCreateInstance (typ : GoType) (name : String) (inner : GoError) : GoError :=
  .wrap .ErrCreateInstance (some typ) name inner

def errUnresolvedDependency (typ : GoType) (name : String) : GoError :=
  .base .ErrUnresolvedDependency (some typ) name none

def errUnsupportedLifetime (typ : GoType) (name : String) : GoError :=
  .base .ErrUnsupportedLifetime (some typ) name none

def errUnexpectedValueType (typ : GoType) (name : String) (expected : GoType) : GoError :=
  .base .ErrUnexpectedValueType (some typ) name (some expected)

def errInterfaceNotImplemented (typ : GoType) (name : String) (ifaceT : GoType) : GoError :=
  .base .ErrInterfaceNotImplemented (some typ) name (some ifaceT)

def errResolveInfiniteRecursion (typ : GoType) (name : String) : GoError :=
  .base .ErrResolveInfiniteRecursion (some typ) name none

/-- The fully allocated value of the zero value of a type, as produced by
GetNamedSetter repeatedly executing rv.Set(reflect.New(rv.Type().Elem()))
and dereferencing: every pointer level is allocated, the terminal value is
the zero value of the terminal type. -/
def allocVal : GoType → GoVal
  | .ptr t => .ptrTo (allocVal t)
  | .iface n => .nilIfaceV n
  | t => .nonPtr t 0

/-- The dereferencing loop of GetNamedSetter. settable records whether rv was
reached through Elem() of a pointer (reflect addressability). A settable nil
pointer is replaced by a freshly allocated chain (the loop keeps allocating
through every remaining pointer level, so the closed form uses allocVal and
derefTypePtrs); the result is the target's type together with the updated
shape of the argument. -/
def getSetterLoop (name : String) : GoVal → Bool → Except GoError (GoType × GoVal)
  | .ptrTo v, _ =>
    match getSetterLoop name v true with
    | .ok (t, v') => .ok (t, .ptrTo v')
    | .error e => .error e
  | .nilPtr t, settable =>
    if settable then .ok (derefTypePtrs t, .ptrTo (allocVal t))
    else .error (errNonSetNilPointer (.ptr t) name)
  | v, settable =>
    if settable then .ok (valType v, v)
    else .error (errRequirePointer (valType v) name)

/-- GetNamedSetter(v, name): none models an untyped nil argument
(reflect.TypeOf(v) == nil). Returns the settable target's type and the
updated shape of v after any nil-pointer allocations. -/
def GetNamedSetter (v : Option GoVal) (name : String) :
    Except GoError (GoType × GoVal) :=
  match v with
  | none => .error (errNilType name)
  | some v => getSetterLoop name v false

/-- The dereferencing loop of GetNamedInstance: while rv is a pointer, take
Elem() and fail with NilValue on a nil pointer or nil interface. -/
def derefInstanceLoop (name : String) : GoVal → Except GoError GoVal
  | .ptrTo v =>
    if isNilPtrOrIface v then .error (errNilValue (valType v) name)
    else derefInstanceLoop name v
  | v => .ok v

/-- GetNamedInstance(v, name): untyped nil fails with NilType; a typed nil
pointer or interface fails with NilValue; otherwise the value is dereferenced
through every pointer level to its canonical non-pointer form. -/
def GetNamedInstance (v : Option GoVal) (name : String) : Except GoError GoVal :=
  match v with
  | none => .error (errNilType name)
  | some v =>
    if isNilPtrOrIface v then .error (errNilValue (valType v) name)
    else derefInstanceLoop name v

/-- GetNamedType(t, name), on the reflect.TypeOf of the marker: untyped nil
fails with NilType, a non-pointer type fails with RequirePointer, otherwise
every pointer level is stripped. -/
def GetNamedType (t : Option GoType) (name : String) : Except GoError GoType :=
  match t with
  | none => .error (errNilType name)
  | some (.ptr t) => .ok (derefTypePtrs t)
  | some t => .error (errRequirePointer t name)

/-- An iterated non-nil pointer chain, for stating properties of setter
extraction on arbitrarily deep targets. -/
def ptrChainV : Nat → GoVal → GoVal
  | 0, v => v
  | n + 1, v => .ptrTo (ptrChainV n v)

/-- Go's Lifetime is an int; values outside the three constants are possible
(the source validates them at registration and again at dispatch). -/
abbrev Lifetime := Int

def PerContainer : Lifetime := 0

def PerScope : Lifetime := 1

def PerRequest : Lifetime := 2

/-- Deep embedding of factory functions func(Factory) (interface{}, error):
return a value (possibly an untyped or typed nil), return an error, or first
resolve a dependency of the given type and name through the received resolver
(into a fresh settable target) and—on success—return a value. -/
inductive FactoryFn where
  | ret (v : Option GoVal)
  | fail (msg : String)
  | resolveThen (typ : GoType) (name : String) (v : Option GoVal)
deriving DecidableEq, Repr

/-- The Registration struct. Typ is modelled as a plain GoType: every
registration the source constructs carries the non-nil type produced by
GetNamedType or GetNamedInstance (the registry's accessors assume non-nil
types), so the defensive r.Type == nil branch of CreateInstance is vacuous
here. -/
structure Registration where
  Typ : GoType
  Name : String
  Value : Option GoVal
  CreateInstanceFn : Option FactoryFn
  Lifetime : Lifetime
deriving DecidableEq, Repr

/-- What a resolve assigns into the target: an ordinary instance
(*reflect.Value), or—for the two reserved unnamed lookups—the container
itself or the active dependency resolver. -/
inductive Instance where
  | val (v : GoVal)
  | containerRef (cid : Nat)
  | resolverRef (cid : Nat)
deriving DecidableEq, Repr

/-- Keys of the flattened map[reflect.Type]map[string]X tables. -/
abbrev Key := GoType × String

/-- List indexing by position (the heap-pointer dereference of the model). -/
def nth {α : Type} : List α → Nat → Option α
  | [], _ => none
  | a :: _, 0 => some a
  | _ :: l, n + 1 => nth l n

/-- In-place update at a position (no-op when out of range). -/
def setNth {α : Type} : List α → Nat → α → List α
  | [], _, _ => []
  | _ :: l, 0, b => b :: l
  | a :: l, n + 1, b => a :: setNth l n b

/-- Association-list lookup for the flattened nested maps. -/
def assocGet {α : Type} : List (Key × α) → Key → Option α
  | [], _ => none
  | (k', v) :: rest, k => if k' = k then some v else assocGet rest k

/-- Association-list add-or-update for the flattened nested maps. -/
def assocSet {α : Type} : List (Key × α) → Key → α → List (Key × α)
  | [], k, v => [(k, v)]
  | (k', v') :: rest, k, v =>
    if k' = k then (k, v) :: rest else (k', v') :: assocSet rest k v

/-- A Values node: optional parent pointer (index) and the local mapping. -/
structure ValuesObj where
  parent : Option Nat
  instances : List (Key × Instance)
deriving DecidableEq, Repr

/-- A registry object: the (type, name) → Registration mapping. -/
structure RegistryObj where
  registrations : List (Key × Registration)
deriving DecidableEq, Repr

/-- A Container: root back-reference (none for a root container), the owned
Values store, the owned registry and the owned instance cache, as indices. -/
structure ContainerObj where
  root : Option Nat
  valuesId : Nat
  regId : Nat
  instancesId : Nat
deriving DecidableEq, Repr

/-- The heap: all allocated Values nodes, registries and containers. -/
structure St where
  values : List ValuesObj
  regs : List RegistryObj
  containers : List ContainerObj
deriving DecidableEq, Repr

def emptySt : St := { values := [], regs := [], containers := [] }

/-- (*Values).get: local mapping only. -/
def valuesGet (st : St) (vid : Nat) (typ : GoType) (name : String) :
    Option Instance :=
  match nth st.values vid with
  | some vo => assocGet vo.instances (typ, name)
  | none => none

/-- The parent-chain walk of (*Values).getParent. The fuel argument only
guards against parent cycles, which the source API cannot construct. -/
def valuesGetParentLoop (st : St) :
    Nat → Option Nat → GoType → String → Option Instance
  | 0, _, _, _ => none
  | _ + 1, none, _, _ => none
  | fuel + 1, some pid, typ, name =>
    match nth st.values pid with
    | none => none
    | some po =>
      match assocGet po.instances (typ, name) with
      | some i => some i
      | none => valuesGetParentLoop st fuel po.parent typ name

/-- (*Values).getParent: search the ancestors, nearest first. -/
def valuesGetParent (st : St) (vid : Nat) (typ : GoType) (name : String) :
    Option Instance :=
  match nth st.values vid with
  | some vo => valuesGetParentLoop st st.values.length vo.parent typ name
  | none => none

/-- The lookup performed by (*Values).GetNamed: local mapping first, then the
ancestor chain. -/
def valuesLookup (st : St) (vid : Nat) (typ : GoType) (name : String) :
    Option Instance :=
  match valuesGet st vid typ name with
  | some i => some i
  | none => valuesGetParent st vid typ name

/-- (*Values).set: add or update in the local mapping only. -/
def valuesSet (st : St) (vid : Nat) (typ : GoType) (name : String)
    (inst : Instance) : St :=
  match nth st.values vid with
  | some vo =>
    let vo' : ValuesObj :=
      { vo with instances := assocSet vo.instances (typ, name) inst }
    { st with values := setNth st.values vid vo' }
  | none => st

/-- (*registry).get by registry index. -/
def registryGet (st : St) (rid : Nat) (typ : GoType) (name : String) :
    Option Registration :=
  match nth st.regs rid with
  | some ro => assocGet ro.registrations (typ, name)
  | none => none

/-- (*registry).set by registry index: add or update. -/
def registrySet (st : St) (rid : Nat) (typ : GoType) (name : String)
    (r : Registration) : St :=
  match nth st.regs rid with
  | some ro =>
    let ro' : RegistryObj :=
      { registrations := assocSet ro.registrations (typ, name) r }
    { st with regs := setNth st.regs rid ro' }
  | none => st

/-- Registration lookup in a container's registry. -/
def containerRegGet (st : St) (cid : Nat) (typ : GoType) (name : String) :
    Option Registration :=
  match nth st.containers cid with
  | some c => registryGet st c.regId typ name
  | none => none

/-- The container's ambient value store lookup used by the resolver fallback:
resolver.c.get, i.e. (*Values).get on the container's Values — local only. -/
def containerValuesGet (st : St) (cid : Nat) (typ : GoType) (name : String) :
    Option Instance :=
  match nth st.containers cid with
  | some c => valuesGet st c.valuesId typ name
  | none => none

/-- The instance cache lookup resolver.c.instances.get. -/
def instancesGet (st : St) (cid : Nat) (typ : GoType) (name : String) :
    Option Instance :=
  match nth st.containers cid with
  | some c => valuesGet st c.instancesId typ name
  | none => none

/-- The instance cache write resolver.c.instances.set. -/
def instancesSet (st : St) (cid : Nat) (typ : GoType) (name : String)
    (inst : Instance) : St :=
  match nth st.containers cid with
  | some c => valuesSet st c.instancesId typ name inst
  | none => st

/-- The container the PerContainer dispatch re-routes to: the root back
reference when present, the container itself otherwise. -/
def containerRootOf (st : St) (cid : Nat) : Nat :=
  match nth st.containers cid with
  | some c =>
    match c.root with
    | some r => r
    | none => cid
  | none => cid

/-- The dependencyResolverGraph: its mutex (explicit) and the flattened
counter map. -/
structure Graph where
  mutexLocked : Bool
  lookup : List (Key × Int)
deriving DecidableEq, Repr

def emptyGraph : Graph := { mutexLocked := false, lookup := [] }

/-- The package-level RecursionLimit default. -/
def RecursionLimitDefault : Int := 30

/-- (*dependencyResolverGraph).track. g.m.Lock() on an already held mutex is
single-threaded nontermination, modelled as none. When the key is already
tracked, the incremented count is checked against the limit; the early
return false on that path does NOT execute g.m.Unlock(), so the returned
graph still holds the mutex (and the stored count is not updated). A key not
yet tracked is stored with count 1 without any limit check. -/
def track (limit : Int) (g : Graph) (typ : GoType) (name : String) :
    Option (Graph × Bool) :=
  if g.mutexLocked then none
  else
    match assocGet g.lookup (typ, name) with
    | some count =>
      if count + 1 ≥ limit then
        some ({ g with mutexLocked := true }, false)
      else
        some ({ mutexLocked := false,
                lookup := assocSet g.lookup (typ, name) (count + 1) }, true)
    | none =>
      some ({ mutexLocked := false,
              lookup := assocSet g.lookup (typ, name) 1 }, true)

/-- NewContainer(): allocates an empty Values store, an empty registry, an
empty instance cache and a container with no root reference; returns the new
state and the new container's index. -/
def NewContainer (st : St) : St × Nat :=
  let vid := st.values.length
  let st1 := { st with values := st.values ++ [({ parent := none, instances := [] } : ValuesObj)] }
  let iid := st1.values.length
  let st2 := { st1 with values := st1.values ++ [({ parent := none, instances := [] } : ValuesObj)] }
  let rid := st2.regs.length
  let st3 := { st2 with regs := st2.regs ++ [({ registrations := [] } : RegistryObj)] }
  let cid := st3.containers.length
  ({ st3 with containers := st3.containers ++
      [({ root := none, valuesId := vid, regId := rid,
          instancesId := iid } : ContainerObj)] },
   cid)

/-- (*Container).Scope(): the child's root is c's root (or c itself when c is
a root), its Values chains to c's Values, its registry is a clone of c's
registry at this instant, and its instance cache is fresh and empty. -/
def Scope (st : St) (cid : Nat) : St × Nat :=
  match nth st.containers cid with
  | none => (st, cid)
  | some c =>
    let rootId := match c.root with
      | some r => r
      | none => cid
    let vid := st.values.length
    let st1 := { st with values :=
        st.values ++ [({ parent := some c.valuesId, instances := [] } : ValuesObj)] }
    let iid := st1.values.length
    let st2 := { st1 with values :=
        st1.values ++ [({ parent := none, instances := [] } : ValuesObj)] }
    let cloned := match nth st2.regs c.regId with
      | some ro => ro.registrations
      | none => []
    let rid := st2.regs.length
    let st3 := { st2 with regs :=
        st2.regs ++ [({ registrations := cloned } : RegistryObj)] }
    let cid' := st3.containers.length
    ({ st3 with containers := st3.containers ++
        [({ root := some rootId, valuesId := vid, regId := rid,
            instancesId := iid } : ContainerObj)] },
     cid')

/-- (*Container).RegisterNamed: validate the type marker (GetNamedType on the
marker's reflect.Type), the factory and the lifetime, then store the
Registration in this container's registry with overwrite semantics. -/
def RegisterNamed (st : St) (cid : Nat) (createInstance : Option FactoryFn)
    (implType : Option GoType) (name : String) (lifetime : Lifetime) :
    St × Option GoError :=
  match GetNamedType implType name with
  | .error e => (st, some e)
  | .ok typ =>
    match createInstance with
    | none => (st, some (errCreateInstanceFnNil typ name))
    | some fn =>
      let registration : Registration :=
        { Typ := typ, Name := name, Value := none,
          CreateInstanceFn := some fn, Lifetime := lifetime }
      if lifetime ≠ PerContainer ∧ lifetime ≠ PerScope ∧ lifetime ≠ PerRequest
      then
        (st, some (errUnsupportedLifetime registration.Typ registration.Name))
      else
        match nth st.containers cid with
        | some c => (registrySet st c.regId typ name registration, none)
        | none => (st, none)

/-- (*Container).RegisterNamedInstance: extract the canonical instance, store
a static PerContainer Registration (whose factory returns the raw v) in THIS
container's registry, and write the canonical instance into the ROOT
container's instance cache. -/
def RegisterNamedInstance (st : St) (cid : Nat) (v : Option GoVal)
    (name : String) : St × Option GoError :=
  match GetNamedInstance v name with
  | .error e => (st, some e)
  | .ok inst =>
    let typ := valType inst
    let registration : Registration :=
      { Typ := typ, Name := name, Value := v,
        CreateInstanceFn := some (.ret v), Lifetime := PerContainer }
    match nth st.containers cid with
    | none => (st, none)
    | some c =>
      let st1 := registrySet st c.regId typ name registration
      let rootId := match c.root with
        | some r => r
        | none => cid
      match nth st1.containers rootId with
      | none => (st1, none)
      | some rc => (valuesSet st1 rc.instancesId typ name (.val inst), none)

/-- (*Values).SetNamed on a Values node: extract the canonical instance and
store it under its canonical type and the name. -/
def SetNamed (st : St) (vid : Nat) (v : Option GoVal) (name : String) :
    St × Option GoError :=
  match GetNamedInstance v name with
  | .error e => (st, some e)
  | .ok inst => (valuesSet st vid (valType inst) name (.val inst), none)

/-- (*Container).SetNamed: SetNamed on the container's own Values store. -/
def ContainerSetNamed (st : St) (cid : Nat) (v : Option GoVal)
    (name : String) : St × Option GoError :=
  match nth st.containers cid with
  | some c => SetNamed st c.valuesId v name
  | none => (st, none)

/-- Iterated scope derivation: derive n nested scopes from a container. -/
def scopeChain (st : St) (cid : Nat) : Nat → St × Nat
  | 0 => (st, cid)
  | n + 1 =>
    let p := scopeChain st cid n
    Scope p.1 p.2

/-- The resolution capability a dependencyResolver offers to the routines it
calls: resolve (type, name) on a container index, threading state and the
shared recursion graph. -/
abbrev ResolveCb :=
  St → Graph → Nat → GoType → String →
  Option (St × Graph × Except GoError Instance)

/-- Run a deep-embedded factory function with the given resolver capability.
resolveThen models a factory that resolves (typ, name) into a fresh settable
target through the resolver it received, propagating a resolution error, and
otherwise returns v. -/
def runFactory (cb : ResolveCb) (st : St) (g : Graph) (cid : Nat) :
    FactoryFn → Option (St × Graph × Except GoError (Option GoVal))
  | .ret v => some (st, g, .ok v)
  | .fail msg => some (st, g, .error (.userErr msg))
  | .resolveThen typ name v =>
    match cb st g cid typ name with
    | none => none
    | some (st', g', .error e) => some (st', g', .error e)
    | some (st', g', .ok _) => some (st', g', .ok v)

/-- (*Registration).CreateInstance: invoke the factory (CreateInstanceNil if
absent; wrap a factory error as CreateInstance carrying the cause), put the
result through GetNamedInstance, then validate: canonical type equal to the
declared type succeeds with the canonical value; otherwise a non-interface
declared type fails with UnexpectedValueType; an interface declared type
succeeds with the RAW (undereferenced) value when the raw value's runtime
type implements it and fails with InterfaceNotImplemented otherwise. -/
def CreateInstance (impls : GoType → GoType → Bool) (cb : ResolveCb)
    (st : St) (g : Graph) (cid : Nat) (r : Registration) :
    Option (St × Graph × Except GoError GoVal) :=
  match r.CreateInstanceFn with
  | none => some (st, g, .error (errCreateInstanceFnNil r.Typ r.Name))
  | some fn =>
    match runFactory cb st g cid fn with
    | none => none
    | some (st', g', .error e) =>
      some (st', g', .error (errCreateInstance r.Typ r.Name e))
    | some (st', g', .ok instRaw) =>
      match GetNamedInstance instRaw r.Name with
      | .error e => some (st', g', .error e)
      | .ok rv =>
        if valType rv = r.Typ then some (st', g', .ok rv)
        else if ¬ isIfaceType r.Typ then
          some (st', g', .error (errUnexpectedValueType (valType rv) r.Name r.Typ))
        else
          -- GetNamedInstance succeeded, so instRaw = some raw; the source
          -- re-reads reflect.TypeOf(instance) and reflect.ValueOf(instance)
          -- from the raw factory result here.
          let rawV := instRaw.getD rv
          if impls (valType rawV) r.Typ then some (st', g', .ok rawV)
          else
            some (st', g',
              .error (errInterfaceNotImplemented (valType rawV) r.Name r.Typ))

/-- (*dependencyResolver).resolveSingletonLifetime: return a cached instance
when present; otherwise track the key in the recursion graph (failing with
InfiniteRecursion when the limit is hit), create the instance, and cache it
on success. -/
def resolveSingletonLifetime (impls : GoType → GoType → Bool) (limit : Int)
    (cb : ResolveCb) (st : St) (g : Graph) (cid : Nat) (r : Registration) :
    Option (St × Graph × Except GoError Instance) :=
  match instancesGet st cid r.Typ r.Name with
  | some inst => some (st, g, .ok inst)
  | none =>
    match track limit g r.Typ r.Name with
    | none => none
    | some (g', false) =>
      some (st, g', .error (errResolveInfiniteRecursion r.Typ r.Name))
    | some (g', true) =>
      match CreateInstance impls cb st g' cid r with
      | none => none
      | some (st', g'', .error e) => some (st', g'', .error e)
      | some (st', g'', .ok v) =>
        some (instancesSet st' cid r.Typ r.Name (.val v), g'', .ok (.val v))

/-- (*dependencyResolver).resolvePerRequestLifetime: track the key, then
create a fresh instance with no cache interaction. -/
def resolvePerRequestLifetime (impls : GoType → GoType → Bool) (limit : Int)
    (cb : ResolveCb) (st : St) (g : Graph) (cid : Nat) (r : Registration) :
    Option (St × Graph × Except GoError Instance) :=
  match track limit g r.Typ r.Name with
  | none => none
  | some (g', false) =>
    some (st, g', .error (errResolveInfiniteRecursion r.Typ r.Name))
  | some (g', true) =>
    match CreateInstance impls cb st g' cid r with
    | none => none
    | some (st', g'', .error e) => some (st', g'', .error e)
    | some (st', g'', .ok v) => some (st', g'', .ok (.val v))

/-- (*dependencyResolver).ResolveNamed after target extraction: the body from
the reserved-type special cases onward, with typ the extracted target type.
The first argument after limit is the fuel bounding recursion through user
factories; the resolver passed to factories resolves with the remaining
fuel. -/
def resolveTyped (impls : GoType → GoType → Bool) (limit : Int) :
    Nat → St → Graph → Nat → GoType → String →
    Option (St × Graph × Except GoError Instance)
  | 0, _, _, _, _, _ => none
  | fuel + 1, st, g, cid, typ, name =>
    if name = "" ∧ typ = GoType.containerT then
      some (st, g, .ok (.containerRef cid))
    else if name = "" ∧ typ = GoType.factoryT then
      some (st, g, .ok (.resolverRef cid))
    else
      match containerRegGet st cid typ name with
      | none =>
        match containerValuesGet st cid typ name with
        | some inst => some (st, g, .ok inst)
        | none => some (st, g, .error (errUnresolvedDependency typ name))
      | some r =>
        let cb : ResolveCb := fun st' g' cid' typ' name' =>
          resolveTyped impls limit fuel st' g' cid' typ' name'
        if r.Lifetime = PerContainer then
          resolveSingletonLifetime impls limit cb st g (containerRootOf st cid) r
        else if r.Lifetime = PerScope then
          resolveSingletonLifetime impls limit cb st g cid r
        else if r.Lifetime = PerRequest then
          resolvePerRequestLifetime impls limit cb st g cid r
        else
          some (st, g, .error (errUnsupportedLifetime r.Typ r.Name))

/-- (*Container).ResolveNamed: extract the settable target, create a fresh
dependency resolver with a NEW recursion graph bound to this container, and
delegate; the graph is discarded when the call returns. -/
def ContainerResolveNamed (impls : GoType → GoType → Bool) (limit : Int)
    (fuel : Nat) (st : St) (cid : Nat) (v : Option GoVal) (name : String) :
    Option (St × Except GoError Instance) :=
  match GetNamedSetter v name with
  | .error e => some (st, .error e)
  | .ok (typ, _) =>
    match resolveTyped impls limit fuel st emptyGraph cid typ name with
    | none => none
    | some (st', _, res) => some (st', res)

/-- A trivially false interface-satisfaction relation, for concrete runs that
involve no interface registrations. -/
def implsNone : GoType → GoType → Bool := fun _ _ => false

/-- A resolver capability that never terminates; vacuously state-preserving,
used to instantiate callback-generic theorems at concrete inputs. -/
def cbNone : ResolveCb := fun _ _ _ _ _ => none

/-- The parts of the state a resolve call can never change: the container
table, the registries and the number (and identity of indices) of Values
nodes. Resolution only writes through valuesSet, which updates one existing
node in place. -/
def Frame (st st' : St) : Prop :=
  st'.containers = st.containers ∧ st'.regs = st.regs ∧
  st'.values.length = st.values.length

/-- A resolver capability that only changes state within Frame. -/
def PreservesSt (cb : ResolveCb) : Prop :=
  ∀ st g cid typ name out, cb st g cid typ name = some out → Frame st out.1

/-- The invariant behind PerContainer visibility of a statically registered
instance: the container's registry maps (typ, name) to the PerContainer
registration reg, the container's PerContainer dispatch target is rid, and
rid's instance cache holds the canonical instance. -/
def InvPerContainer (st : St) (cid rid : Nat) (typ : GoType) (name : String)
    (reg : Registration) (inst : GoVal) : Prop :=
  containerRegGet st cid typ name = some reg ∧
  containerRootOf st cid = rid ∧
  instancesGet st rid typ name = some (.val inst) ∧
  reg.Typ = typ ∧ reg.Name = name ∧ reg.Lifetime = PerContainer

/-- Concrete run for C1: a root container (index 0) with ambient int-like
value 7 set on its Values store, and a scope (index 1) derived from it. -/
def stC1 : St :=
  (Scope (ContainerSetNamed (NewContainer emptySt).1 0
    (some (.nonPtr (.base 0) 7)) "").1 0).1

/-- Concrete run for C2: a root container with a PerRequest factory for the
unnamed key of type base 0, returning value 5. -/
def stC2 : St :=
  (RegisterNamed (NewContainer emptySt).1 0
    (some (.ret (some (.nonPtr (.base 0) 5)))) (some (.ptr (.base 0))) ""
    PerRequest).1

/-- Concrete run for C4: a root container (0), a scope (1) derived from it,
and an instance registered through the SCOPE via RegisterNamedInstance. -/
def stC4 : St :=
  (RegisterNamedInstance (Scope (NewContainer emptySt).1 0).1 1
    (some (.nonPtr (.base 0) 1)) "").1

/-- A registration whose factory returns untyped nil, for C5. -/
def regC5 : Registration :=
  { Typ := .base 0, Name := "", Value := none,
    CreateInstanceFn := some (.ret none), Lifetime := PerRequest }

/-- A registration with no factory attached, for the C5 witness. -/
def regNoFn : Registration :=
  { Typ := .base 0, Name := "", Value := none,
    CreateInstanceFn := none, Lifetime := PerScope }

/-- A PerScope registration with a constant factory, for the C3 witness. -/
def regC3 : Registration :=
  { Typ := .base 0, Name := "", Value := none,
    CreateInstanceFn := some (.ret (some (.nonPtr (.base 0) 5))),
    Lifetime := PerScope }

/-- A root container whose instance cache already holds (base 0, "") with
payload 5, for the C3 witness. -/
def stC3 : St :=
  instancesSet (NewContainer emptySt).1 0 (.base 0) ""
    (.val (.nonPtr (.base 0) 5))

/-- The container object a NewContainer run allocates at index 0. -/
def c0Obj : ContainerObj :=
  { root := none, valuesId := 0, regId := 0, instancesId := 1 }

/-- A two-node parent/child value store for the C7 witness: node 0 (the
parent) holds (base 1, "k") with payload 7; node 1 chains to it and is
empty. -/
def stC7 : St :=
  { values := [{ parent := none,
                 instances := [((GoType.base 1, "k"),
                   Instance.val (.nonPtr (.base 1) 7))] },
               { parent := some 0, instances := [] }],
    regs := [], containers := [] }

theorem nth_lt_length {α : Type} {l : List α} {n : Nat} {a : α}
    (h : nth l n = some a) : n < l.length := by
  induction l generalizing n with
  | nil => simp [nth] at h
  | cons x l ih =>
    cases n with
    | zero => simp
    | succ n => simpa using Nat.succ_lt_succ (ih (by simpa [nth] using h))

theorem nth_exists_of_lt {α : Type} {l : List α} {n : Nat}
    (h : n < l.length) : ∃ a, nth l n = some a := by
  induction l generalizing n with
  | nil => simp at h
  | cons x l ih =>
    cases n with
    | zero => exact ⟨x, rfl⟩
    | succ n => exact ih (by simpa using Nat.lt_of_succ_lt_succ h)

theorem length_setNth {α : Type} (l : List α) (n : Nat) (b : α) :
    (setNth l n b).length = l.length := by
  induction l generalizing n with
  | nil => rfl
  | cons x l ih =>
    cases n with
    | zero => rfl
    | succ n => simp [setNth, ih]

theorem nth_setNth_self {α : Type} {l : List α} {n : Nat}
    (h : n < l.length) (b : α) : nth (setNth l n b) n = some b := by
  induction l generalizing n with
  | nil => simp at h
  | cons x l ih =>
    cases n with
    | zero => rfl
    | succ n => exact ih (by simpa using Nat.lt_of_succ_lt_succ h)

theorem nth_setNth_ne {α : Type} (l : List α) {n m : Nat}
    (h : n ≠ m) (b : α) : nth (setNth l n b) m = nth l m := by
  induction l generalizing n m with
  | nil => rfl
  | cons x l ih =>
    cases n with
    | zero =>
      cases m with
      | zero => exact absurd rfl h
      | succ m => rfl
    | succ n =>
      cases m with
      | zero => rfl
      | succ m => exact ih (fun hnm => h (by simp [hnm]))

theorem nth_append_lt {α : Type} {l : List α} (l' : List α) {n : Nat}
    (h : n < l.length) : nth (l ++ l') n = nth l n := by
  induction l generalizing n with
  | nil => simp at h
  | cons x l ih =>
    cases n with
    | zero => rfl
    | succ n => exact ih (by simpa using Nat.lt_of_succ_lt_succ h)

theorem nth_append_length {α : Type} (l : List α) (x : α) :
    nth (l ++ [x]) l.length = some x := by
  induction l with
  | nil => rfl
  | cons y l ih => simpa [nth] using ih

theorem assocGet_assocSet_self {α : Type} (l : List (Key × α)) (k : Key)
    (v : α) : assocGet (assocSet l k v) k = some v := by
  induction l with
  | nil => simp [assocSet, assocGet]
  | cons p l ih =>
    by_cases h : p.1 = k
    · simp [assocSet, assocGet, h]
    · simp [assocSet, assocGet, h, ih]

theorem assocGet_assocSet_ne {α : Type} (l : List (Key × α)) {k k' : Key}
    (h : k ≠ k') (v : α) : assocGet (assocSet l k v) k' = assocGet l k' := by
  induction l with
  | nil => simp [assocSet, assocGet, h]
  | cons p l ih =>
    by_cases hp : p.1 = k
    · simp [assocSet, assocGet, hp, h]
    · simp [assocSet, assocGet, hp, ih]

/-- C9. The Recursion Graph's mutex is claimed to be released before track
returns in both outcomes. The source releases it on the true path only: at a
graph already tracking (base 0, "") with count 1 and RecursionLimit 1, track
returns false with the mutex still held (so any further track call on the
same graph deadlocks), while the allowed path (limit 3) does unlock. -/
theorem c9_track_mutex_leak :
    track 1 { mutexLocked := false, lookup := [((GoType.base 0, ""), 1)] }
        (GoType.base 0) "" =
      some ({ mutexLocked := true, lookup := [((GoType.base 0, ""), 1)] },
        false)
  ∧ track 3 { mutexLocked := false, lookup := [((GoType.base 0, ""), 1)] }
        (GoType.base 0) "" =
      some ({ mutexLocked := false, lookup := [((GoType.base 0, ""), 2)] },
        true) := by
  constructor
  · rfl
  · rfl

theorem getSetterLoop_chain (name : String) :
    ∀ (n : Nat) (t : GoType) (d : Nat),
      getSetterLoop name (ptrChainV n (.nonPtr t d)) true =
        .ok (t, ptrChainV n (.nonPtr t d)) := by
  intro n
  induction n with
  | zero => intro t d; rfl
  | succ n ih => intro t d; simp [ptrChainV, getSetterLoop, ih]

/-- C10. GetNamedSetter dereferences through every pointer level of the
target; a settable nil pointer along the chain is replaced by a freshly
allocated chain of values written through it; a typed nil pointer passed at
top level (not settable) fails with ErrNonSetNilPointer; and a non-pointer
value fails with ErrRequirePointer. -/
theorem c10_getNamedSetter :
    (∀ (n : Nat) (t : GoType) (d : Nat) (name : String),
       GetNamedSetter (some (ptrChainV (n + 1) (.nonPtr t d))) name =
         .ok (t, ptrChainV (n + 1) (.nonPtr t d)))
  ∧ (∀ (t : GoType) (name : String),
       GetNamedSetter (some (.ptrTo (.nilPtr t))) name =
         .ok (derefTypePtrs t, .ptrTo (.ptrTo (allocVal t))))
  ∧ (∀ (t : GoType) (name : String),
       GetNamedSetter (some (.nilPtr t)) name =
         .error (errNonSetNilPointer (.ptr t) name))
  ∧ (∀ (t : GoType) (d : Nat) (name : String),
       GetNamedSetter (some (.nonPtr t d)) name =
         .error (errRequirePointer t name)) := by
  refine ⟨fun n t d name => ?_, fun t name => rfl, fun t name => rfl,
    fun t d name => rfl⟩
  simp [GetNamedSetter, ptrChainV, getSetterLoop, getSetterLoop_chain]

/-- C7. A set on a Scoped Value Store node modifies only that node's local
mapping: every other node's stored object is untouched (so no ancestor is
mutated), the writing node's lookup now returns the new (shadowing) binding,
other keys of the writing node are unchanged, and a local lookup on any other
node (in particular an ancestor) still returns whatever it held before. -/
theorem c7_values_set_local (st : St) (vid : Nat) (typ : GoType)
    (name : String) (inst : Instance) (vo : ValuesObj)
    (hv : nth st.values vid = some vo) :
    (∀ j, j ≠ vid → nth (valuesSet st vid typ name inst).values j =
       nth st.values j)
  ∧ valuesGet (valuesSet st vid typ name inst) vid typ name = some inst
  ∧ valuesLookup (valuesSet st vid typ name inst) vid typ name = some inst
  ∧ (∀ typ' name', (typ', name') ≠ (typ, name) →
       valuesGet (valuesSet st vid typ name inst) vid typ' name' =
         valuesGet st vid typ' name')
  ∧ (∀ a, a ≠ vid → valuesGet (valuesSet st vid typ name inst) a typ name =
       valuesGet st a typ name) := by
  have hlt : vid < st.values.length := nth_lt_length hv
  have hget : ∀ j, j ≠ vid →
      nth (valuesSet st vid typ name inst).values j = nth st.values j := by
    intro j hj
    simp only [valuesSet, hv]
    exact nth_setNth_ne st.values (fun h => hj h.symm) _
  have hself : nth (valuesSet st vid typ name inst).values vid =
      some { vo with instances := assocSet vo.instances (typ, name) inst } := by
    simp only [valuesSet, hv]
    exact nth_setNth_self hlt _
  have hlocal : valuesGet (valuesSet st vid typ name inst) vid typ name =
      some inst := by
    simp [valuesGet, hself, assocGet_assocSet_self]
  refine ⟨hget, hlocal, ?_, ?_, ?_⟩
  · simp [valuesLookup, hlocal]
  · intro typ' name' hk
    simp only [valuesGet, hself, hv]
    exact assocGet_assocSet_ne vo.instances (fun h => hk h.symm) inst
  · intro a ha
    simp only [valuesGet, hget a ha]

/-- A closed instantiation of the C7 theorem: writing (base 1, "k") into node
1 of a two-node parent/child store shadows locally and leaves the parent node
0 and its binding untouched. -/
theorem c7_values_set_local_witness :
    (∀ j, j ≠ 1 →
       nth (valuesSet stC7 1 (.base 1) "k"
         (.val (.nonPtr (.base 1) 8))).values j = nth stC7.values j)
  ∧ valuesGet (valuesSet stC7 1 (.base 1) "k"
      (.val (.nonPtr (.base 1) 8))) 1 (.base 1) "k" =
      some (.val (.nonPtr (.base 1) 8))
  ∧ valuesLookup (valuesSet stC7 1 (.base 1) "k"
      (.val (.nonPtr (.base 1) 8))) 1 (.base 1) "k" =
      some (.val (.nonPtr (.base 1) 8))
  ∧ (∀ typ' name', (typ', name') ≠ (GoType.base 1, "k") →
       valuesGet (valuesSet stC7 1 (.base 1) "k"
         (.val (.nonPtr (.base 1) 8))) 1 typ' name' =
       valuesGet stC7 1 typ' name')
  ∧ (∀ a, a ≠ 1 →
       valuesGet (valuesSet stC7 1 (.base 1) "k"
         (.val (.nonPtr (.base 1) 8))) a (.base 1) "k" =
       valuesGet stC7 a (.base 1) "k") :=
  c7_values_set_local stC7 1 (.base 1) "k" (.val (.nonPtr (.base 1) 8))
    { parent := some 0, instances := [] } rfl

/-- C8. Scope gives the child a snapshot of the parent's registry: the child
container's registry index is fresh (distinct from the parent's), its
contents at that instant equal the parent's, and any subsequent registry
write through one of the two indices (in any later state) leaves the registry
object at the other index untouched. -/
theorem c8_scope_registry_snapshot (st : St) (cid : Nat) (c : ContainerObj)
    (ro : RegistryObj) (hc : nth st.containers cid = some c)
    (hro : nth st.regs c.regId = some ro) :
    (nth (Scope st cid).1.containers (Scope st cid).2).map ContainerObj.regId
      = some st.regs.length
  ∧ nth (Scope st cid).1.regs st.regs.length =
      some { registrations := ro.registrations }
  ∧ c.regId ≠ st.regs.length
  ∧ (∀ st2 typ name reg,
       nth (registrySet st2 c.regId typ name reg).regs st.regs.length =
         nth st2.regs st.regs.length)
  ∧ (∀ st2 typ name reg,
       nth (registrySet st2 st.regs.length typ name reg).regs c.regId =
         nth st2.regs c.regId) := by
  have hne : c.regId ≠ st.regs.length :=
    Nat.ne_of_lt (nth_lt_length hro)
  have hindep : ∀ (st2 : St) (i j : Nat), i ≠ j →
      ∀ typ name reg,
        nth (registrySet st2 i typ name reg).regs j = nth st2.regs j := by
    intro st2 i j hij typ name reg
    unfold registrySet
    cases hnth : nth st2.regs i with
    | none => rfl
    | some ro2 => simpa using nth_setNth_ne st2.regs hij _
  refine ⟨?_, ?_, hne, ?_, ?_⟩
  · simp only [Scope, hc, hro]
    rw [nth_append_length]
    rfl
  · simp only [Scope, hc, hro]
    exact nth_append_length _ _
  · intro st2 typ name reg
    exact hindep st2 c.regId st.regs.length hne typ name reg
  · intro st2 typ name reg
    exact hindep st2 st.regs.length c.regId (fun h => hne h.symm) typ name reg

/-- A closed instantiation of the C8 theorem at a freshly built root
container: scoping it clones its (empty) registry into the fresh index 1,
and writes through either registry index leave the other untouched. -/
theorem c8_scope_registry_snapshot_witness :
    (nth (Scope (NewContainer emptySt).1 0).1.containers
        (Scope (NewContainer emptySt).1 0).2).map ContainerObj.regId = some 1
  ∧ nth (Scope (NewContainer emptySt).1 0).1.regs 1 =
      some { registrations := [] }
  ∧ (0 : Nat) ≠ 1
  ∧ (∀ st2 typ name reg,
       nth (registrySet st2 0 typ name reg).regs 1 = nth st2.regs 1)
  ∧ (∀ st2 typ name reg,
       nth (registrySet st2 1 typ name reg).regs 0 = nth st2.regs 0) := by
  have h := c8_scope_registry_snapshot (NewContainer emptySt).1 0
    { root := none, valuesId := 0, regId := 0, instancesId := 1 }
    { registrations := [] } rfl rfl
  exact h

/-- C1 counterexample. The claim says the no-registration fallback consults
the ambient value store local-then-ancestor. Concretely: value 7 of type
base 0 is set on the ROOT container's ambient store, a scope is derived, and
the scope's container ResolveNamed for (base 0, "") with no registration
anywhere fails with UnresolvedDependency even though the local-then-ancestor
lookup on the scope's own value store (node 2, per the scope's container
record) finds the instance in the parent. -/
theorem c1_counterexample :
    containerRegGet stC1 1 (.base 0) "" = none
  ∧ nth stC1.containers 1 =
      some { root := some 0, valuesId := 2, regId := 1, instancesId := 3 }
  ∧ valuesLookup stC1 2 (.base 0) "" = some (.val (.nonPtr (.base 0) 7))
  ∧ ContainerResolveNamed implsNone 30 10 stC1 1
      (some (.ptrTo (.nonPtr (.base 0) 0))) "" =
      some (stC1, .error (errUnresolvedDependency (.base 0) "")) := by
  refine ⟨rfl, rfl, rfl, rfl⟩

/-- C1 amended. When no registration exists for the non-reserved (typ, name)
the resolver falls back to the LOCAL mapping of the container's ambient value
store only (resolver.c.get): a local hit is returned and assigned, anything
else — including values present only in ancestor stores — fails with
UnresolvedDependency; the state and graph are unchanged either way. -/
theorem c1_resolve_fallback_local_only (impls : GoType → GoType → Bool)
    (limit : Int) (fuel : Nat) (st : St) (g : Graph) (cid : Nat)
    (typ : GoType) (name : String)
    (hres : ¬(name = "" ∧ (typ = GoType.containerT ∨ typ = GoType.factoryT)))
    (hreg : containerRegGet st cid typ name = none) :
    resolveTyped impls limit (fuel + 1) st g cid typ name =
      some (st, g,
        match containerValuesGet st cid typ name with
        | some inst => .ok inst
        | none => .error (errUnresolvedDependency typ name)) := by
  have h1 : ¬(name = "" ∧ typ = GoType.containerT) := by
    intro h; exact hres ⟨h.1, Or.inl h.2⟩
  have h2 : ¬(name = "" ∧ typ = GoType.factoryT) := by
    intro h; exact hres ⟨h.1, Or.inr h.2⟩
  simp only [resolveTyped, if_neg h1, if_neg h2, hreg]
  rcases containerValuesGet st cid typ name with _ | inst
  · rfl
  · rfl

/-- A closed instantiation of the amended C1 theorem, at the C1 state: the
scope's local ambient store has no binding, so the fallback fails even though
the ancestor holds one. -/
theorem c1_resolve_fallback_local_only_witness :
    resolveTyped implsNone 30 10 stC1 emptyGraph 1 (.base 0) "" =
      some (stC1, emptyGraph,
        match containerValuesGet stC1 1 (.base 0) "" with
        | some inst => .ok inst
        | none => .error (errUnresolvedDependency (.base 0) "")) :=
  c1_resolve_fallback_local_only implsNone 30 9 stC1 emptyGraph 1 (.base 0) ""
    (by simp) rfl

/-- C4, code behavior at the failing input. An instance (base 0, payload 1)
is registered through a scope (container 1) of a root (container 0) via
RegisterNamedInstance; the registration lands in the scope's registry and the
instance in the root's instance cache; resolving from the scope returns the
identical instance, but resolving the same key from the ROOT container fails
with UnresolvedDependency — the root's registry never received the
registration and the ambient fallback does not consult the instance cache —
contradicting the claim (and the repository's own container_test.go
expectation that the value is available from the root container). -/
theorem c4_root_resolve_fails :
    (RegisterNamedInstance (Scope (NewContainer emptySt).1 0).1 1
        (some (.nonPtr (.base 0) 1)) "").2 = none
  ∧ instancesGet stC4 0 (.base 0) "" = some (.val (.nonPtr (.base 0) 1))
  ∧ ContainerResolveNamed implsNone 30 10 stC4 1
      (some (.ptrTo (.nonPtr (.base 0) 0))) "" =
      some (stC4, .ok (.val (.nonPtr (.base 0) 1)))
  ∧ ContainerResolveNamed implsNone 30 10 stC4 0
      (some (.ptrTo (.nonPtr (.base 0) 0))) "" =
      some (stC4, .error (errUnresolvedDependency (.base 0) "")) := by
  refine ⟨rfl, rfl, rfl, rfl⟩

/-- C2 counterexample. With RecursionLimit 1, the first track of a fresh key
stores post-increment count 1 — which reaches the limit — yet returns true,
and a whole PerRequest resolve under limit 1 (and even limit 0) succeeds
instead of failing with InfiniteRecursion: the first attempt on a key is
never checked against the limit. -/
theorem c2_counterexample :
    track 1 emptyGraph (.base 0) "" =
      some ({ mutexLocked := false,
              lookup := [((GoType.base 0, ""), 1)] }, true)
  ∧ (1 : Int) ≥ 1
  ∧ ContainerResolveNamed implsNone 1 10 stC2 0
      (some (.ptrTo (.nonPtr (.base 0) 0))) "" =
      some (stC2, .ok (.val (.nonPtr (.base 0) 5)))
  ∧ ContainerResolveNamed implsNone 0 10 stC2 0
      (some (.ptrTo (.nonPtr (.base 0) 0))) "" =
      some (stC2, .ok (.val (.nonPtr (.base 0) 5))) := by
  refine ⟨rfl, by decide, rfl, rfl⟩

theorem derefInstanceLoop_error_code {name : String} :
    ∀ {v : GoVal} {e : GoError}, derefInstanceLoop name v = .error e →
      errCode e = some .ErrNilValue := by
  intro v
  induction v with
  | nonPtr t d => intro e h; simp [derefInstanceLoop] at h
  | nilIfaceV n => intro e h; simp [derefInstanceLoop] at h
  | nilPtr t => intro e h; simp [derefInstanceLoop] at h
  | ptrTo v ih =>
    intro e h
    by_cases hb : isNilPtrOrIface v
    · simp [derefInstanceLoop, hb] at h
      subst h
      rfl
    · exact ih (by simpa [derefInstanceLoop, hb] using h)

theorem getNamedInstance_error_code {v : Option GoVal} {name : String}
    {e : GoError} (h : GetNamedInstance v name = .error e) :
    errCode e = some .ErrNilType ∨ errCode e = some .ErrNilValue := by
  cases v with
  | none =>
    simp [GetNamedInstance] at h
    subst h
    exact Or.inl rfl
  | some v =>
    by_cases hb : isNilPtrOrIface v
    · simp [GetNamedInstance, hb] at h
      subst h
      exact Or.inr rfl
    · exact Or.inr (derefInstanceLoop_error_code
        (by simpa [GetNamedInstance, hb] using h))

theorem createInstance_error_code {impls : GoType → GoType → Bool}
    {cb : ResolveCb} {st : St} {g : Graph} {cid : Nat} {r : Registration}
    {st' : St} {g' : Graph} {e : GoError}
    (h : CreateInstance impls cb st g cid r = some (st', g', .error e)) :
    errCode e ≠ some .ErrResolveInfiniteRecursion := by
  unfold CreateInstance at h
  cases hfn : r.CreateInstanceFn with
  | none =>
    simp only [hfn] at h
    simp at h
    obtain ⟨-, -, he⟩ := h
    subst he
    simp [errCreateInstanceFnNil, errCode]
  | some fn =>
    simp only [hfn] at h
    cases hrun : runFactory cb st g cid fn with
    | none => simp only [hrun] at h; simp at h
    | some out =>
      obtain ⟨st1, g1, res⟩ := out
      simp only [hrun] at h
      cases res with
      | error e1 =>
        simp at h
        obtain ⟨-, -, he⟩ := h
        subst he
        simp [errCreateInstance, errCode]
      | ok instRaw =>
        cases hgi : GetNamedInstance instRaw r.Name with
        | error e2 =>
          simp only [hgi] at h
          simp at h
          obtain ⟨-, -, he⟩ := h
          subst he
          rcases getNamedInstance_error_code hgi with hcode | hcode <;>
            rw [hcode] <;> simp
        | ok rv =>
          simp only [hgi] at h
          by_cases h1 : valType rv = r.Typ
          · rw [if_pos h1] at h
            simp at h
          · rw [if_neg h1] at h
            by_cases h2 : isIfaceType r.Typ = true
            · simp only [h2, not_true_eq_false, if_false] at h
              by_cases h3 : impls (valType (instRaw.getD rv)) r.Typ = true
              · simp [h3] at h
              · simp [h3] at h
                obtain ⟨-, -, he⟩ := h
                subst he
                simp [errInterfaceNotImplemented, errCode]
            · simp only [h2] at h
              simp at h
              obtain ⟨-, -, he⟩ := h
              subst he
              simp [errUnexpectedValueType, errCode]

/-- C2 amended. The recursion check: a key never tracked before is stored
with count 1 and allowed regardless of the limit (no check on the first
attempt); a key already tracked at count c is allowed with the stored count
updated to c+1 when c+1 < limit, and fails when c+1 ≥ limit (leaving the
stored count unchanged and, per C9, the mutex held). Consequently a
PerRequest materialization — and a PerContainer/PerScope materialization on a
cache miss — fails with InfiniteRecursion exactly when the key was already
tracked with a count c such that c+1 reaches or exceeds the limit. -/
theorem c2_track_first_attempt_unchecked (limit : Int) (g : Graph)
    (typ : GoType) (name : String) (hg : g.mutexLocked = false) :
    (assocGet g.lookup (typ, name) = none → track limit g typ name =
       some ({ mutexLocked := false,
               lookup := assocSet g.lookup (typ, name) 1 }, true))
  ∧ (∀ c : Int, assocGet g.lookup (typ, name) = some c → c + 1 ≥ limit →
       track limit g typ name = some ({ g with mutexLocked := true }, false))
  ∧ (∀ c : Int, assocGet g.lookup (typ, name) = some c → c + 1 < limit →
       track limit g typ name =
         some ({ mutexLocked := false,
                 lookup := assocSet g.lookup (typ, name) (c + 1) }, true))
  ∧ (∀ (impls : GoType → GoType → Bool) (cb : ResolveCb) (st : St)
       (cid : Nat) (r : Registration), r.Typ = typ → r.Name = name →
       ((∃ st' g', resolvePerRequestLifetime impls limit cb st g cid r =
           some (st', g', .error (errResolveInfiniteRecursion typ name))) ↔
        (∃ c : Int, assocGet g.lookup (typ, name) = some c ∧ c + 1 ≥ limit)))
  ∧ (∀ (impls : GoType → GoType → Bool) (cb : ResolveCb) (st : St)
       (cid : Nat) (r : Registration), r.Typ = typ → r.Name = name →
       instancesGet st cid typ name = none →
       ((∃ st' g', resolveSingletonLifetime impls limit cb st g cid r =
           some (st', g', .error (errResolveInfiniteRecursion typ name))) ↔
        (∃ c : Int, assocGet g.lookup (typ, name) = some c ∧ c + 1 ≥ limit))) := by
  have htrackF : ∀ c : Int, assocGet g.lookup (typ, name) = some c →
      c + 1 ≥ limit →
      track limit g typ name = some ({ g with mutexLocked := true }, false) := by
    intro c hc hge
    simp [track, hg, hc, hge]
  have htrack_cases : ∀ g1 b, track limit g typ name = some (g1, b) →
      b = false →
      ∃ c : Int, assocGet g.lookup (typ, name) = some c ∧ c + 1 ≥ limit := by
    intro g1 b ht hb
    subst hb
    unfold track at ht
    rw [hg] at ht
    simp only [Bool.false_eq_true, if_false] at ht
    cases hc : assocGet g.lookup (typ, name) with
    | none => simp only [hc] at ht; simp at ht
    | some c =>
      simp only [hc] at ht
      by_cases hge : c + 1 ≥ limit
      · exact ⟨c, rfl, hge⟩
      · rw [if_neg hge] at ht; simp at ht
  refine ⟨?_, htrackF, ?_, ?_, ?_⟩
  · intro hc
    simp [track, hg, hc]
  · intro c hc hlt
    simp [track, hg, hc, not_le.mpr hlt]
  · intro impls cb st cid r hrT hrN
    subst hrT; subst hrN
    constructor
    · rintro ⟨st', g', h⟩
      unfold resolvePerRequestLifetime at h
      split at h
      · simp at h
      · rename_i g1 htr
        exact htrack_cases g1 false htr rfl
      · rename_i g1 htr
        split at h
        · simp at h
        · rename_i st1 g2 e1 hci
          simp at h
          obtain ⟨-, -, he⟩ := h
          exact absurd rfl (he ▸ createInstance_error_code hci)
        · simp at h
    · rintro ⟨c, hc, hge⟩
      refine ⟨st, { g with mutexLocked := true }, ?_⟩
      simp [resolvePerRequestLifetime, htrackF c hc hge]
  · intro impls cb st cid r hrT hrN hmiss
    subst hrT; subst hrN
    constructor
    · rintro ⟨st', g', h⟩
      unfold resolveSingletonLifetime at h
      simp only [hmiss] at h
      split at h
      · simp at h
      · rename_i g1 htr
        exact htrack_cases g1 false htr rfl
      · rename_i g1 htr
        split at h
        · simp at h
        · rename_i st1 g2 e1 hci
          simp at h
          obtain ⟨-, -, he⟩ := h
          exact absurd rfl (he ▸ createInstance_error_code hci)
        · simp at h
    · rintro ⟨c, hc, hge⟩
      refine ⟨st, { g with mutexLocked := true }, ?_⟩
      simp [resolveSingletonLifetime, hmiss, htrackF c hc hge]

/-- A closed instantiation of the amended C2 theorem: with limit 2 and a key
already tracked at count 1, track fails; with a fresh graph the first attempt
is allowed and stores count 1 even under limit 0. -/
theorem c2_track_first_attempt_unchecked_witness :
    track 2 { mutexLocked := false, lookup := [((GoType.base 1, "w"), 1)] }
        (.base 1) "w" =
      some ({ mutexLocked := true,
              lookup := [((GoType.base 1, "w"), 1)] }, false)
  ∧ track 0 emptyGraph (.base 1) "w" =
      some ({ mutexLocked := false,
              lookup := [((GoType.base 1, "w"), 1)] }, true) := by
  constructor
  · exact (c2_track_first_attempt_unchecked 2
      { mutexLocked := false, lookup := [((GoType.base 1, "w"), 1)] }
      (.base 1) "w" rfl).2.1 1 rfl (by decide)
  · exact (c2_track_first_attempt_unchecked 0 emptyGraph
      (.base 1) "w" rfl).1 rfl

/-- C5 counterexample. The claim says a factory result that is nil fails
with NilValue. A factory returning untyped nil (return nil, nil) makes
CreateInstance fail with a NilType-coded error (no type information), not
NilValue. -/
theorem c5_counterexample :
    CreateInstance implsNone cbNone emptySt emptyGraph 0 regC5 =
      some (emptySt, emptyGraph, .error (errNilType ""))
  ∧ errCode (errNilType "") ≠ some ErrorCode.ErrNilValue := by
  exact ⟨rfl, by decide⟩

/-- C5 amended. CreateInstance fails with CreateInstanceNil when no factory
is attached; wraps a factory error as a CreateInstance-coded error carrying
the original cause; fails with NilType when the factory result is untyped
nil and with NilValue when it is a typed nil pointer/interface; succeeds
with the canonical (fully dereferenced) value when its type equals the
declared Type; otherwise fails with UnexpectedValueType when the declared
Type is not an interface; and when it is an interface, succeeds with the raw
(unwrapped) value when the raw result's runtime type implements it, failing
with InterfaceNotImplemented otherwise. -/
theorem c5_createInstance_cases (impls : GoType → GoType → Bool)
    (cb : ResolveCb) (st : St) (g : Graph) (cid : Nat) (r : Registration) :
    (r.CreateInstanceFn = none →
       CreateInstance impls cb st g cid r =
         some (st, g, .error (errCreateInstanceFnNil r.Typ r.Name)))
  ∧ (∀ fn st' g' e, r.CreateInstanceFn = some fn →
       runFactory cb st g cid fn = some (st', g', .error e) →
       CreateInstance impls cb st g cid r =
         some (st', g', .error (errCreateInstance r.Typ r.Name e)))
  ∧ (∀ fn st' g', r.CreateInstanceFn = some fn →
       runFactory cb st g cid fn = some (st', g', .ok none) →
       CreateInstance impls cb st g cid r =
         some (st', g', .error (errNilType r.Name)))
  ∧ (∀ fn st' g' v, r.CreateInstanceFn = some fn →
       runFactory cb st g cid fn = some (st', g', .ok (some v)) →
       isNilPtrOrIface v = true →
       CreateInstance impls cb st g cid r =
         some (st', g', .error (errNilValue (valType v) r.Name)))
  ∧ (∀ fn st' g' v rv, r.CreateInstanceFn = some fn →
       runFactory cb st g cid fn = some (st', g', .ok (some v)) →
       GetNamedInstance (some v) r.Name = .ok rv →
       valType rv = r.Typ →
       CreateInstance impls cb st g cid r = some (st', g', .ok rv))
  ∧ (∀ fn st' g' v rv, r.CreateInstanceFn = some fn →
       runFactory cb st g cid fn = some (st', g', .ok (some v)) →
       GetNamedInstance (some v) r.Name = .ok rv →
       valType rv ≠ r.Typ → isIfaceType r.Typ = false →
       CreateInstance impls cb st g cid r =
         some (st', g',
           .error (errUnexpectedValueType (valType rv) r.Name r.Typ)))
  ∧ (∀ fn st' g' v rv, r.CreateInstanceFn = some fn →
       runFactory cb st g cid fn = some (st', g', .ok (some v)) →
       GetNamedInstance (some v) r.Name = .ok rv →
       valType rv ≠ r.Typ → isIfaceType r.Typ = true →
       impls (valType v) r.Typ = true →
       CreateInstance impls cb st g cid r = some (st', g', .ok v))
  ∧ (∀ fn st' g' v rv, r.CreateInstanceFn = some fn →
       runFactory cb st g cid fn = some (st', g', .ok (some v)) →
       GetNamedInstance (some v) r.Name = .ok rv →
       valType rv ≠ r.Typ → isIfaceType r.Typ = true →
       impls (valType v) r.Typ = false →
       CreateInstance impls cb st g cid r =
         some (st', g',
           .error (errInterfaceNotImplemented (valType v) r.Name r.Typ))) := by
  refine ⟨?_, ?_, ?_, ?_, ?_, ?_, ?_, ?_⟩
  · intro hfn
    simp [CreateInstance, hfn]
  · intro fn st' g' e hfn hrun
    simp [CreateInstance, hfn, hrun]
  · intro fn st' g' hfn hrun
    simp [CreateInstance, hfn, hrun, GetNamedInstance]
  · intro fn st' g' v hfn hrun hnil
    simp [CreateInstance, hfn, hrun, GetNamedInstance, hnil]
  · intro fn st' g' v rv hfn hrun hgi heq
    simp [CreateInstance, hfn, hrun, hgi, heq]
  · intro fn st' g' v rv hfn hrun hgi hne hif
    simp [CreateInstance, hfn, hrun, hgi, hne, hif]
  · intro fn st' g' v rv hfn hrun hgi hne hif himp
    simp [CreateInstance, hfn, hrun, hgi, hne, hif, himp]
  · intro fn st' g' v rv hfn hrun hgi hne hif himp
    simp [CreateInstance, hfn, hrun, hgi, hne, hif, himp]

/-- A closed instantiation of the amended C5 theorem: a registration with no
factory attached fails with CreateInstanceNil. -/
theorem c5_createInstance_cases_witness :
    CreateInstance implsNone cbNone emptySt emptyGraph 0 regNoFn =
      some (emptySt, emptyGraph,
        .error (errCreateInstanceFnNil (.base 0) "")) :=
  (c5_createInstance_cases implsNone cbNone emptySt emptyGraph 0 regNoFn).1 rfl

theorem frame_refl (st : St) : Frame st st := ⟨rfl, rfl, rfl⟩

theorem frame_trans {st st' st'' : St} (h : Frame st st')
    (h' : Frame st' st'') : Frame st st'' :=
  ⟨h'.1.trans h.1, h'.2.1.trans h.2.1, h'.2.2.trans h.2.2⟩

theorem valuesSet_containers (st : St) (vid : Nat) (typ : GoType)
    (name : String) (inst : Instance) :
    (valuesSet st vid typ name inst).containers = st.containers := by
  unfold valuesSet
  cases hv : nth st.values vid <;> simp

theorem valuesSet_regs (st : St) (vid : Nat) (typ : GoType) (name : String)
    (inst : Instance) : (valuesSet st vid typ name inst).regs = st.regs := by
  unfold valuesSet
  cases hv : nth st.values vid <;> simp

theorem valuesSet_values_length (st : St) (vid : Nat) (typ : GoType)
    (name : String) (inst : Instance) :
    (valuesSet st vid typ name inst).values.length = st.values.length := by
  unfold valuesSet
  cases hv : nth st.values vid <;> simp [length_setNth]

theorem valuesSet_frame (st : St) (vid : Nat) (typ : GoType) (name : String)
    (inst : Instance) : Frame st (valuesSet st vid typ name inst) :=
  ⟨valuesSet_containers st vid typ name inst,
   valuesSet_regs st vid typ name inst,
   valuesSet_values_length st vid typ name inst⟩

theorem instancesSet_frame (st : St) (cid : Nat) (typ : GoType)
    (name : String) (inst : Instance) :
    Frame st (instancesSet st cid typ name inst) := by
  unfold instancesSet
  cases hc : nth st.containers cid with
  | none => exact frame_refl st
  | some c => exact valuesSet_frame st c.instancesId typ name inst

theorem valuesGet_valuesSet_self (st : St) (vid : Nat) (typ : GoType)
    (name : String) (inst : Instance) (h : vid < st.values.length) :
    valuesGet (valuesSet st vid typ name inst) vid typ name = some inst := by
  obtain ⟨vo, hvo⟩ := nth_exists_of_lt h
  unfold valuesSet
  simp only [hvo]
  unfold valuesGet
  simp only [nth_setNth_self h, assocGet_assocSet_self]

theorem instancesGet_instancesSet_self (st : St) (cid : Nat) (typ : GoType)
    (name : String) (inst : Instance) (c : ContainerObj)
    (hc : nth st.containers cid = some c)
    (hlen : c.instancesId < st.values.length) :
    instancesGet (instancesSet st cid typ name inst) cid typ name =
      some inst := by
  unfold instancesSet
  simp only [hc]
  unfold instancesGet
  simp only [valuesSet_containers, hc]
  exact valuesGet_valuesSet_self st c.instancesId typ name inst hlen

theorem preserves_cbNone : PreservesSt cbNone := by
  intro st g cid typ name out h
  simp [cbNone] at h

theorem runFactory_frame {cb : ResolveCb} (hcb : PreservesSt cb) {st : St}
    {g : Graph} {cid : Nat} {fn : FactoryFn} {st' : St} {g' : Graph}
    {res : Except GoError (Option GoVal)}
    (h : runFactory cb st g cid fn = some (st', g', res)) : Frame st st' := by
  cases fn with
  | ret v =>
    simp [runFactory] at h
    obtain ⟨h1, -⟩ := h
    subst h1
    exact frame_refl st
  | fail msg =>
    simp [runFactory] at h
    obtain ⟨h1, -⟩ := h
    subst h1
    exact frame_refl st
  | resolveThen typ name v =>
    unfold runFactory at h
    cases hcb' : cb st g cid typ name with
    | none => simp only [hcb'] at h; simp at h
    | some out =>
      obtain ⟨st1, g1, res1⟩ := out
      simp only [hcb'] at h
      have hf := hcb st g cid typ name (st1, g1, res1) hcb'
      cases res1 with
      | error e =>
        simp at h
        obtain ⟨h1, -⟩ := h
        subst h1
        exact hf
      | ok w =>
        simp at h
        obtain ⟨h1, -⟩ := h
        subst h1
        exact hf

theorem createInstance_frame {impls : GoType → GoType → Bool}
    {cb : ResolveCb} (hcb : PreservesSt cb) {st : St} {g : Graph} {cid : Nat}
    {r : Registration} {st' : St} {g' : Graph} {res : Except GoError GoVal}
    (h : CreateInstance impls cb st g cid r = some (st', g', res)) :
    Frame st st' := by
  unfold CreateInstance at h
  cases hfn : r.CreateInstanceFn with
  | none =>
    simp only [hfn] at h
    simp at h
    obtain ⟨h1, -⟩ := h
    subst h1
    exact frame_refl st
  | some fn =>
    simp only [hfn] at h
    cases hrun : runFactory cb st g cid fn with
    | none => simp only [hrun] at h; simp at h
    | some out =>
      obtain ⟨st1, g1, res1⟩ := out
      simp only [hrun] at h
      have hf : Frame st st1 := runFactory_frame hcb hrun
      cases res1 with
      | error e1 =>
        simp at h
        obtain ⟨h1, -⟩ := h
        subst h1
        exact hf
      | ok instRaw =>
        cases hgi : GetNamedInstance instRaw r.Name with
        | error e2 =>
          simp only [hgi] at h
          simp at h
          obtain ⟨h1, -⟩ := h
          subst h1
          exact hf
        | ok rv =>
          simp only [hgi] at h
          by_cases h1 : valType rv = r.Typ
          · rw [if_pos h1] at h
            simp at h
            obtain ⟨h2, -⟩ := h
            subst h2
            exact hf
          · rw [if_neg h1] at h
            by_cases h2 : isIfaceType r.Typ = true
            · simp only [h2, not_true_eq_false, if_false] at h
              by_cases h3 : impls (valType (instRaw.getD rv)) r.Typ = true
              · simp [h3] at h
                obtain ⟨h4, -⟩ := h
                subst h4
                exact hf
              · simp [h3] at h
                obtain ⟨h4, -⟩ := h
                subst h4
                exact hf
            · simp only [h2] at h
              simp at h
              obtain ⟨h4, -⟩ := h
              subst h4
              exact hf

theorem resolveSingletonLifetime_frame {impls : GoType → GoType → Bool}
    {limit : Int} {cb : ResolveCb} (hcb : PreservesSt cb) {st : St}
    {g : Graph} {cid : Nat} {r : Registration} {st' : St} {g' : Graph}
    {res : Except GoError Instance}
    (h : resolveSingletonLifetime impls limit cb st g cid r =
      some (st', g', res)) : Frame st st' := by
  unfold resolveSingletonLifetime at h
  cases hmiss : instancesGet st cid r.Typ r.Name with
  | some i =>
    simp only [hmiss] at h
    simp at h
    obtain ⟨h1, -⟩ := h
    subst h1
    exact frame_refl st
  | none =>
    simp only [hmiss] at h
    split at h
    · simp at h
    · simp at h
      obtain ⟨h1, -⟩ := h
      subst h1
      exact frame_refl st
    · rename_i g1 htr
      split at h
      · simp at h
      · rename_i st1 g2 e1 hci
        simp at h
        obtain ⟨h1, -⟩ := h
        subst h1
        exact createInstance_frame hcb hci
      · rename_i st1 g2 v hci
        simp at h
        obtain ⟨h1, -⟩ := h
        subst h1
        exact frame_trans (createInstance_frame hcb hci)
          (instancesSet_frame st1 cid r.Typ r.Name (.val v))

theorem resolvePerRequestLifetime_frame {impls : GoType → GoType → Bool}
    {limit : Int} {cb : ResolveCb} (hcb : PreservesSt cb) {st : St}
    {g : Graph} {cid : Nat} {r : Registration} {st' : St} {g' : Graph}
    {res : Except GoError Instance}
    (h : resolvePerRequestLifetime impls limit cb st g cid r =
      some (st', g', res)) : Frame st st' := by
  unfold resolvePerRequestLifetime at h
  split at h
  · simp at h
  · simp at h
    obtain ⟨h1, -⟩ := h
    subst h1
    exact frame_refl st
  · rename_i g1 htr
    split at h
    · simp at h
    · rename_i st1 g2 e1 hci
      simp at h
      obtain ⟨h1, -⟩ := h
      subst h1
      exact createInstance_frame hcb hci
    · rename_i st1 g2 v hci
      simp at h
      obtain ⟨h1, -⟩ := h
      subst h1
      exact createInstance_frame hcb hci

theorem resolveTyped_frame {impls : GoType → GoType → Bool} {limit : Int} :
    ∀ (fuel : Nat) (st : St) (g : Graph) (cid : Nat) (typ : GoType)
      (name : String) (out : St × Graph × Except GoError Instance),
      resolveTyped impls limit fuel st g cid typ name = some out →
      Frame st out.1 := by
  intro fuel
  induction fuel with
  | zero => intro st g cid typ name out h; simp [resolveTyped] at h
  | succ fuel ih =>
    intro st g cid typ name out h
    have hcb : PreservesSt (fun st' g' cid' typ' name' =>
        resolveTyped impls limit fuel st' g' cid' typ' name') := by
      intro st1 g1 cid1 typ1 name1 out1 h1
      exact ih st1 g1 cid1 typ1 name1 out1 h1
    unfold resolveTyped at h
    by_cases h1 : name = "" ∧ typ = GoType.containerT
    · rw [if_pos h1] at h
      simp at h
      subst h
      exact frame_refl st
    · rw [if_neg h1] at h
      by_cases h2 : name = "" ∧ typ = GoType.factoryT
      · rw [if_pos h2] at h
        simp at h
        subst h
        exact frame_refl st
      · rw [if_neg h2] at h
        cases hreg : containerRegGet st cid typ name with
        | none =>
          simp only [hreg] at h
          cases hval : containerValuesGet st cid typ name with
          | some i =>
            simp only [hval] at h
            simp at h
            subst h
            exact frame_refl st
          | none =>
            simp only [hval] at h
            simp at h
            subst h
            exact frame_refl st
        | some r =>
          simp only [hreg] at h
          by_cases hl1 : r.Lifetime = PerContainer
          · rw [if_pos hl1] at h
            obtain ⟨st1, g1, res1⟩ := out
            exact resolveSingletonLifetime_frame hcb h
          · rw [if_neg hl1] at h
            by_cases hl2 : r.Lifetime = PerScope
            · rw [if_pos hl2] at h
              obtain ⟨st1, g1, res1⟩ := out
              exact resolveSingletonLifetime_frame hcb h
            · rw [if_neg hl2] at h
              by_cases hl3 : r.Lifetime = PerRequest
              · rw [if_pos hl3] at h
                obtain ⟨st1, g1, res1⟩ := out
                exact resolvePerRequestLifetime_frame hcb h
              · rw [if_neg hl3] at h
                simp at h
                subst h
                exact frame_refl st

/-- C3. PerContainer/PerScope materialization and the instance cache: a
cache hit is returned with state and recursion graph untouched (so the
counter is not consulted and no factory runs); a successful materialization
on a cache miss leaves the created instance in the owning container's cache;
and an erroring materialization performs no cache write of its own — the
recursion-limit failure returns the state unchanged, and a factory failure
returns exactly the state of the factory invocation, so the key stays
uncached and a later resolve retries materialization. -/
theorem c3_singleton_cache_discipline (impls : GoType → GoType → Bool)
    (limit : Int) (cb : ResolveCb) (hcb : PreservesSt cb) (st : St)
    (g : Graph) (cid : Nat) (r : Registration) (c : ContainerObj)
    (hc : nth st.containers cid = some c)
    (hlen : c.instancesId < st.values.length) :
    (∀ inst, instancesGet st cid r.Typ r.Name = some inst →
       resolveSingletonLifetime impls limit cb st g cid r =
         some (st, g, .ok inst))
  ∧ (∀ st' g' out, instancesGet st cid r.Typ r.Name = none →
       resolveSingletonLifetime impls limit cb st g cid r =
         some (st', g', .ok out) →
       ∃ w, out = .val w ∧
         instancesGet st' cid r.Typ r.Name = some (.val w))
  ∧ (∀ st' g' e,
       resolveSingletonLifetime impls limit cb st g cid r =
         some (st', g', .error e) →
       instancesGet st cid r.Typ r.Name = none ∧
       ((st' = st ∧ e = errResolveInfiniteRecursion r.Typ r.Name ∧
           track limit g r.Typ r.Name = some (g', false))
        ∨ (∃ g1, track limit g r.Typ r.Name = some (g1, true) ∧
             CreateInstance impls cb st g1 cid r =
               some (st', g', .error e)))) := by
  refine ⟨?_, ?_, ?_⟩
  · intro inst hhit
    simp [resolveSingletonLifetime, hhit]
  · intro st' g' out hmiss h
    unfold resolveSingletonLifetime at h
    simp only [hmiss] at h
    split at h
    · simp at h
    · simp at h
    · rename_i g1 htr
      split at h
      · simp at h
      · simp at h
      · rename_i st1 g2 v hci
        simp at h
        obtain ⟨hst, -, hout⟩ := h
        refine ⟨v, hout.symm, ?_⟩
        subst hst
        have hf : Frame st st1 := createInstance_frame hcb hci
        exact instancesGet_instancesSet_self st1 cid r.Typ r.Name (.val v) c
          (hf.1 ▸ hc) (hf.2.2 ▸ hlen)
  · intro st' g' e h
    unfold resolveSingletonLifetime at h
    cases hmiss : instancesGet st cid r.Typ r.Name with
    | some i => simp only [hmiss] at h; simp at h
    | none =>
      simp only [hmiss] at h
      refine ⟨rfl, ?_⟩
      split at h
      · simp at h
      · rename_i g1 htr
        simp at h
        obtain ⟨hst, hg, he⟩ := h
        exact Or.inl ⟨hst.symm, he.symm, hg ▸ htr⟩
      · rename_i g1 htr
        split at h
        · simp at h
        · rename_i st1 g2 e1 hci
          simp at h
          obtain ⟨hst, hg, he⟩ := h
          subst hst; subst hg; subst he
          exact Or.inr ⟨g1, htr, hci⟩
        · simp at h

/-- A closed instantiation of the C3 theorem: a cached (base 0, "") instance
is returned as-is, with state and graph untouched and no factory run. -/
theorem c3_singleton_cache_discipline_witness :
    resolveSingletonLifetime implsNone 30 cbNone stC3 emptyGraph 0 regC3 =
      some (stC3, emptyGraph, .ok (.val (.nonPtr (.base 0) 5))) :=
  (c3_singleton_cache_discipline implsNone 30 cbNone preserves_cbNone stC3
    emptyGraph 0 regC3 c0Obj rfl (by decide)).1
    (.val (.nonPtr (.base 0) 5)) rfl

theorem registrySet_containers (st : St) (rid : Nat) (typ : GoType)
    (name : String) (r : Registration) :
    (registrySet st rid typ name r).containers = st.containers := by
  unfold registrySet
  cases h : nth st.regs rid <;> simp

theorem registrySet_values (st : St) (rid : Nat) (typ : GoType)
    (name : String) (r : Registration) :
    (registrySet st rid typ name r).values = st.values := by
  unfold registrySet
  cases h : nth st.regs rid <;> simp

theorem registryGet_registrySet_self (st : St) (rid : Nat) (typ : GoType)
    (name : String) (r : Registration) (ro : RegistryObj)
    (hro : nth st.regs rid = some ro) :
    registryGet (registrySet st rid typ name r) rid typ name = some r := by
  unfold registrySet
  simp only [hro]
  unfold registryGet
  simp only [nth_setNth_self (nth_lt_length hro), assocGet_assocSet_self]

theorem containerRootOf_congr {st st' : St} (cid : Nat)
    (h : st'.containers = st.containers) :
    containerRootOf st' cid = containerRootOf st cid := by
  unfold containerRootOf
  rw [h]

theorem registerNamedInstance_establishes (st : St) (cid : Nat) (v : GoVal)
    (name : String) (inst : GoVal) (c : ContainerObj) (ro : RegistryObj)
    (rc : ContainerObj)
    (hinst : GetNamedInstance (some v) name = .ok inst)
    (hc : nth st.containers cid = some c)
    (hro : nth st.regs c.regId = some ro)
    (hrc : nth st.containers (containerRootOf st cid) = some rc)
    (hlen : rc.instancesId < st.values.length) :
    (RegisterNamedInstance st cid (some v) name).2 = none ∧
    InvPerContainer (RegisterNamedInstance st cid (some v) name).1 cid
      (containerRootOf st cid) (valType inst) name
      { Typ := valType inst, Name := name, Value := some v,
        CreateInstanceFn := some (.ret (some v)), Lifetime := PerContainer }
      inst := by
  have hrootE : (match c.root with | some r => r | none => cid) =
      containerRootOf st cid := by
    unfold containerRootOf
    rw [hc]
  have hregn : RegisterNamedInstance st cid (some v) name =
      (valuesSet
        (registrySet st c.regId (valType inst) name
          { Typ := valType inst, Name := name, Value := some v,
            CreateInstanceFn := some (.ret (some v)),
            Lifetime := PerContainer })
        rc.instancesId (valType inst) name (.val inst), none) := by
    unfold RegisterNamedInstance
    simp only [hinst, hc]
    rw [hrootE]
    rw [registrySet_containers]
    simp only [hrc]
  rw [hregn]
  set reg : Registration :=
    { Typ := valType inst, Name := name, Value := some v,
      CreateInstanceFn := some (.ret (some v)),
      Lifetime := PerContainer } with hregdef
  set st1 : St := registrySet st c.regId (valType inst) name reg with hst1
  set stF : St := valuesSet st1 rc.instancesId (valType inst) name (.val inst)
    with hstF
  have hcontF : stF.containers = st.containers := by
    rw [hstF, hst1, valuesSet_containers, registrySet_containers]
  refine ⟨rfl, ?_, ?_, ?_, rfl, rfl, rfl⟩
  · unfold containerRegGet
    rw [hcontF]
    simp only [hc]
    have h1 : registryGet stF c.regId (valType inst) name =
        registryGet st1 c.regId (valType inst) name := by
      unfold registryGet
      rw [hstF, valuesSet_regs]
    rw [h1, hst1, registryGet_registrySet_self st c.regId (valType inst) name
      reg ro hro]
  · exact containerRootOf_congr cid hcontF
  · unfold instancesGet
    rw [hcontF]
    simp only [hrc]
    refine valuesGet_valuesSet_self st1 rc.instancesId (valType inst) name
      (.val inst) ?_
    rw [hst1, registrySet_values]
    exact hlen

theorem scope_preserves_inv (st : St) (cid rid : Nat) (typ : GoType)
    (name : String) (reg : Registration) (inst : GoVal)
    (hinv : InvPerContainer st cid rid typ name reg inst) :
    InvPerContainer (Scope st cid).1 (Scope st cid).2 rid typ name reg
      inst := by
  obtain ⟨hreg, hroot, hcache, hT, hN, hL⟩ := hinv
  -- dissect the registration lookup
  cases hc : nth st.containers cid with
  | none => simp only [containerRegGet, hc] at hreg; simp at hreg
  | some c =>
  simp only [containerRegGet, hc] at hreg
  cases hro : nth st.regs c.regId with
  | none => simp only [registryGet, hro] at hreg; simp at hreg
  | some ro =>
  simp only [registryGet, hro] at hreg
  -- dissect the cache lookup
  cases hrc : nth st.containers rid with
  | none => simp only [instancesGet, hrc] at hcache; simp at hcache
  | some rc =>
  simp only [instancesGet, hrc] at hcache
  cases hvo : nth st.values rc.instancesId with
  | none => simp only [valuesGet, hvo] at hcache; simp at hcache
  | some vo =>
  simp only [valuesGet, hvo] at hcache
  -- reduce the Scope call
  have hscope : Scope st cid =
      ({ values := (st.values ++
            [({ parent := some c.valuesId, instances := [] } : ValuesObj)]) ++
            [({ parent := none, instances := [] } : ValuesObj)],
         regs := st.regs ++ [({ registrations := ro.registrations } :
            RegistryObj)],
         containers := st.containers ++
            [({ root := some (match c.root with | some r => r | none => cid),
                valuesId := st.values.length, regId := st.regs.length,
                instancesId := st.values.length + 1 } : ContainerObj)] },
       st.containers.length) := by
    unfold Scope
    simp only [hc, hro]
    simp [List.length_append]
  rw [hscope]
  have hrootE : (match c.root with | some r => r | none => cid) = rid := by
    simp only [containerRootOf, hc] at hroot
    exact hroot
  refine ⟨?_, ?_, ?_, hT, hN, hL⟩
  · unfold containerRegGet
    simp only [nth_append_length]
    unfold registryGet
    simp only [nth_append_length]
    exact hreg
  · unfold containerRootOf
    simp only [nth_append_length]
    exact hrootE
  · have hlt2 : rc.instancesId <
        (st.values ++
          [({ parent := some c.valuesId, instances := [] } : ValuesObj)]).length := by
      simpa [List.length_append] using Nat.lt_succ_of_lt (nth_lt_length hvo)
    simp only [instancesGet, nth_append_lt _ (nth_lt_length hrc), hrc,
      valuesGet, nth_append_lt _ hlt2, nth_append_lt _ (nth_lt_length hvo),
      hvo, hcache]

theorem inv_scopeChain (st : St) (cid rid : Nat) (typ : GoType)
    (name : String) (reg : Registration) (inst : GoVal)
    (hinv : InvPerContainer st cid rid typ name reg inst) :
    ∀ n, InvPerContainer (scopeChain st cid n).1 (scopeChain st cid n).2
      rid typ name reg inst := by
  intro n
  induction n with
  | zero => exact hinv
  | succ n ih =>
    simp only [scopeChain]
    exact scope_preserves_inv _ _ _ _ _ _ _ ih

theorem inv_resolveTyped (impls : GoType → GoType → Bool) (limit : Int)
    (fuel : Nat) (st : St) (g : Graph) (cid rid : Nat) (typ : GoType)
    (name : String) (reg : Registration) (inst : GoVal)
    (hinv : InvPerContainer st cid rid typ name reg inst)
    (hres : ¬(name = "" ∧ (typ = GoType.containerT ∨ typ = GoType.factoryT))) :
    resolveTyped impls limit (fuel + 1) st g cid typ name =
      some (st, g, .ok (.val inst)) := by
  have h1 : ¬(name = "" ∧ typ = GoType.containerT) := by
    intro h; exact hres ⟨h.1, Or.inl h.2⟩
  have h2 : ¬(name = "" ∧ typ = GoType.factoryT) := by
    intro h; exact hres ⟨h.1, Or.inr h.2⟩
  obtain ⟨hreg, hroot, hcache, hT, hN, hL⟩ := hinv
  simp only [resolveTyped, if_neg h1, if_neg h2, hreg]
  rw [if_pos hL]
  rw [hroot]
  unfold resolveSingletonLifetime
  rw [hT, hN]
  simp only [hcache]

/-- C6. RegisterNamedInstance on any container c with a valid non-nil value
stores a PerContainer Registration for the canonical (type, name) in c's own
registry and writes the canonical instance directly into the root
container's instance cache, so that a subsequent resolve of that key from c
— or from any chain of scopes derived from c after the registration —
returns the registered instance from the cache, with the state unchanged
(no factory invocation). -/
theorem c6_registerNamedInstance_perContainer (st : St) (cid : Nat)
    (v : GoVal) (name : String) (inst : GoVal) (c : ContainerObj)
    (ro : RegistryObj) (rc : ContainerObj)
    (hinst : GetNamedInstance (some v) name = .ok inst)
    (hc : nth st.containers cid = some c)
    (hro : nth st.regs c.regId = some ro)
    (hrc : nth st.containers (containerRootOf st cid) = some rc)
    (hlen : rc.instancesId < st.values.length)
    (hres : ¬(name = "" ∧ (valType inst = GoType.containerT ∨
       valType inst = GoType.factoryT))) :
    (RegisterNamedInstance st cid (some v) name).2 = none
  ∧ ∀ (n fuel : Nat) (impls : GoType → GoType → Bool) (limit : Int),
      ContainerResolveNamed impls limit (fuel + 1)
        (scopeChain (RegisterNamedInstance st cid (some v) name).1 cid n).1
        (scopeChain (RegisterNamedInstance st cid (some v) name).1 cid n).2
        (some (.ptrTo (.nonPtr (valType inst) 0))) name =
      some ((scopeChain (RegisterNamedInstance st cid (some v) name).1
        cid n).1, .ok (.val inst)) := by
  obtain ⟨hnone, hinv0⟩ := registerNamedInstance_establishes st cid v name
    inst c ro rc hinst hc hro hrc hlen
  refine ⟨hnone, ?_⟩
  intro n fuel impls limit
  have hinvn := inv_scopeChain _ cid (containerRootOf st cid) (valType inst)
    name _ inst hinv0 n
  unfold ContainerResolveNamed
  have hset : GetNamedSetter (some (.ptrTo (.nonPtr (valType inst) 0)))
      name = .ok (valType inst, .ptrTo (.nonPtr (valType inst) 0)) := rfl
  simp only [hset]
  rw [inv_resolveTyped impls limit fuel _ emptyGraph _ (containerRootOf st
    cid) (valType inst) name _ inst hinvn hres]

/-- A closed instantiation of the C6 theorem: value (base 0, payload 3) is
registered as "x" on a fresh root container; resolving "x" from a scope
derived afterwards returns the registered instance with the state
unchanged. -/
theorem c6_registerNamedInstance_perContainer_witness :
    (RegisterNamedInstance (NewContainer emptySt).1 0
        (some (.nonPtr (.base 0) 3)) "x").2 = none
  ∧ ContainerResolveNamed implsNone 30 5
      (scopeChain (RegisterNamedInstance (NewContainer emptySt).1 0
        (some (.nonPtr (.base 0) 3)) "x").1 0 1).1
      (scopeChain (RegisterNamedInstance (NewContainer emptySt).1 0
        (some (.nonPtr (.base 0) 3)) "x").1 0 1).2
      (some (.ptrTo (.nonPtr (.base 0) 0))) "x" =
      some ((scopeChain (RegisterNamedInstance (NewContainer emptySt).1 0
        (some (.nonPtr (.base 0) 3)) "x").1 0 1).1,
        .ok (.val (.nonPtr (.base 0) 3))) := by
  have h := c6_registerNamedInstance_perContainer (NewContainer emptySt).1 0
    (.nonPtr (.base 0) 3) "x" (.nonPtr (.base 0) 3) c0Obj
    ({ registrations := [] }) c0Obj rfl rfl rfl rfl (by decide) (by decide)
  exact ⟨h.1, h.2 1 4 implsNone 30⟩

end GoIoc
